import Mathlib

/-!
Shallow embedding of the grid-detection and content-detection core of
the repository, file imageviewer/core/content_detection.py, class
ContentDetector.

Modelling conventions.

* Python floats are modelled as exact rationals.
* The OpenCV image-processing stages of detect_grid (blur, adaptive
  threshold, Canny, probabilistic Hough transform) and the trigonometric
  horizontal/vertical classification of segments are external-library and
  floating-trigonometry boundary code; their outputs enter the embedding
  as inputs: the number of raw detected segments (rawLineCount, the
  length of the Hough output) and the two lists of classified positions
  (the mean y of each horizontal segment and the mean x of each vertical
  segment, in the order they were appended).  Everything from the
  in-place sort at line 218 of the source onward is embedded.
* Operations that can raise in Python (division by a zero float, use of
  a None spacing) are modelled in the Except String monad; the try/except
  wrapper of detect_grid is modelled by detect_grid catching the error of
  detectGridBody and converting it to the dictionary built at line 353.
* The Python result dictionary is modelled by the structure GridResult;
  keys absent from a given dictionary are modelled as none.
* Python dicts preserve insertion order, so the groups dict of
  _group_similar_values is modelled as an association list in insertion
  order; Python max and min with a key keep the first extremal element,
  which the folds below reproduce.
-/

/-- Result of ContentDetector.detect_grid: one field per possible key of
the returned dictionary; a key absent from a given return value is none. -/
structure GridResult where
  detected : Bool
  reason : Option String := none
  grid_size_px : Option ℚ := none
  grid_size_m : Option ℚ := none
  raw_grid_size_m : Option ℚ := none
  cells_across : Option ℚ := none
  confidence : Option ℚ := none
  vertical_lines : Option (List ℚ) := none
  horizontal_lines : Option (List ℚ) := none
  vertical_spacing : Option ℚ := none
  horizontal_spacing : Option ℚ := none
  consistency_score : Option ℚ := none
  standard_size_score : Option ℚ := none
  num_lines_score : Option ℚ := none
  deriving DecidableEq

/-- Source line 40: self.standard_grid_sizes = [0.01, 0.02, 0.05, 0.1, 0.2, 0.25, 0.5]. -/
def standard_grid_sizes : List ℚ := [1/100, 2/100, 5/100, 1/10, 2/10, 25/100, 1/2]

/-- Source line 41: self.preferred_grid_size = 0.1. -/
def preferred_grid_size : ℚ := 1/10

/-- Source line 37: self.min_lines_for_grid = 4. -/
def min_lines_for_grid : ℕ := 4

/-- Source line 44: self.consistency_weight = 0.4. -/
def consistency_weight : ℚ := 4/10

/-- Source line 45: self.standard_size_weight = 0.4. -/
def standard_size_weight : ℚ := 4/10

/-- Source line 46: self.num_lines_weight = 0.2. -/
def num_lines_weight : ℚ := 2/10

/-- Loop of ContentDetector._filter_duplicate_lines (source lines 370-372):
last is the last kept position (filtered[-1]); a further position y is kept
exactly when y - last >= tolerance. -/
def filterDupGo (tol : ℚ) (last : ℚ) : List ℚ → List ℚ
  | [] => []
  | y :: ys => if tol ≤ y - last then y :: filterDupGo tol y ys else filterDupGo tol last ys

/-- ContentDetector._filter_duplicate_lines (source lines 355-374): keep the
first position, then keep a position only if it is at least tol away from the
last kept position.  The source default for tol is 10. -/
def filter_duplicate_lines (lines : List ℚ) (tol : ℚ) : List ℚ :=
  match lines with
  | [] => []
  | x :: rest => x :: filterDupGo tol x rest

/-- ContentDetector._calculate_spacings (source line 385):
differences of consecutive entries. -/
def calculate_spacings : List ℚ → List ℚ
  | x :: y :: rest => (y - x) :: calculate_spacings (y :: rest)
  | _ => []

/-- Inner loop of _group_similar_values (source lines 406-421) for one value v:
scan the groups in insertion order; computing abs(value - representative) /
representative with a zero representative raises ZeroDivisionError in Python,
modelled as an error; attach v to the first group whose representative is
within the relative tolerance, else append a new group (v, [v]) at the end. -/
def insertValueE (tol v : ℚ) : List (ℚ × List ℚ) → Except String (List (ℚ × List ℚ))
  | [] => Except.ok [(v, [v])]
  | (rep, members) :: rest =>
    if rep = 0 then Except.error "float division by zero"
    else if |v - rep| / rep ≤ tol then Except.ok ((rep, members ++ [v]) :: rest)
    else (insertValueE tol v rest).map (fun rest2 => (rep, members) :: rest2)

/-- Outer loop of _group_similar_values over the sorted values. -/
def groupValuesGo (tol : ℚ) : List ℚ → List (ℚ × List ℚ) → Except String (List (ℚ × List ℚ))
  | [], gs => Except.ok gs
  | v :: vs, gs =>
    match insertValueE tol v gs with
    | Except.error e => Except.error e
    | Except.ok gs2 => groupValuesGo tol vs gs2

/-- ContentDetector._group_similar_values (source lines 387-423): sort the
values ascending, then insert each into the first matching group.  An empty
input yields the empty dict, which the fold reproduces. -/
def group_similar_values (values : List ℚ) (tol : ℚ) : Except String (List (ℚ × List ℚ)) :=
  groupValuesGo tol (values.insertionSort (· ≤ ·)) []

/-- Scan of Python max(groups.keys(), key=...) (source line 438): the running
best is replaced only on a strictly larger group, so the first maximal
representative in insertion order wins. -/
def mostCommonAux (best : ℚ) (bestLen : ℕ) : List (ℚ × List ℚ) → ℚ
  | [] => best
  | (rep, members) :: rest =>
    if bestLen < members.length then mostCommonAux rep members.length rest
    else mostCommonAux best bestLen rest

/-- ContentDetector._most_common_value (source lines 425-440): None on an
empty dict, else the representative of the largest group, first wins on ties. -/
def most_common_value (groups : List (ℚ × List ℚ)) : Option ℚ :=
  match groups with
  | [] => none
  | (rep, members) :: rest => some (mostCommonAux rep members.length rest)

/-- Python groups.get(key, []) (source lines 245 and 248); the key is the
Option returned by _most_common_value, and get with None yields the default
since None is never a dict key here. -/
def groupsGet (groups : List (ℚ × List ℚ)) : Option ℚ → List ℚ
  | none => []
  | some k =>
    match groups.find? (fun p => decide (p.1 = k)) with
    | some p => p.2
    | none => []

/-- Source lines 245-249: an axis's dominant spacing joins grid_candidates
only if its group has at least 3 members. -/
def axisCandidate (groups : List (ℚ × List ℚ)) (spacing : Option ℚ) : List ℚ :=
  match spacing with
  | none => []
  | some s => if 3 ≤ (groupsGet groups (some s)).length then [s] else []

/-- Python min over a list (source line 254); called only on a nonempty list,
the empty case is unreachable there. -/
def listMin : List ℚ → ℚ
  | [] => 0
  | x :: xs => xs.foldl min x

/-- ContentDetector._calculate_consistency (source lines 442-465).  The
expected spacing is the Option produced by _most_common_value; when the lines
list has fewer than 2 entries the source returns 0 before using it; otherwise
a None expected spacing would raise a TypeError in abs(spacing - None), and a
zero expected spacing a ZeroDivisionError, both modelled as errors. -/
def calculate_consistency (lines : List ℚ) (expected : Option ℚ) : Except String ℚ :=
  if lines.length < 2 then Except.ok 0
  else
    match expected with
    | none => Except.error "unsupported operand type"
    | some e =>
      if e = 0 then Except.error "float division by zero"
      else
        let spacings := calculate_spacings lines
        let errors := spacings.map (fun s => |s - e| / e)
        Except.ok (1 - min 1 (errors.sum / (errors.length : ℚ)))

/-- Source lines 281-285: the minimum over the standard sizes of the relative
distance abs(raw - std) / std; the source starts from infinity, so over the
nonempty table this is the fold of min from the first distance. -/
def minStdRelDistance (raw : ℚ) : ℚ :=
  match standard_grid_sizes.map (fun s => |raw - s| / s) with
  | [] => 0
  | d :: ds => ds.foldl min d

/-- Source lines 271-288: the standard-size score; 1 - d when the relative
distance d to the preferred 0.1 size is below 0.1, else max 0 of
1 - (minimum relative distance to any standard size). -/
def standardSizeScore (raw : ℚ) : ℚ :=
  let dPref := |raw - preferred_grid_size| / preferred_grid_size
  if dPref < 1/10 then 1 - dPref
  else max 0 (1 - minStdRelDistance raw)

/-- Scan of Python min(standard_grid_sizes, key=lambda x: abs(x - raw))
(source line 320): the running best is replaced only on a strictly smaller
absolute distance, so the first minimizer wins. -/
def closestStdGo (raw : ℚ) (best : ℚ) : List ℚ → ℚ
  | [] => best
  | s :: rest => if |s - raw| < |best - raw| then closestStdGo raw s rest else closestStdGo raw best rest

/-- Source line 320: the standard size closest to raw by absolute distance. -/
def closest_std_size (raw : ℚ) : ℚ :=
  match standard_grid_sizes with
  | [] => 0
  | s :: rest => closestStdGo raw s rest

/-- Python round to the nearest integer: round-half-to-even on the exact
rational value. -/
def pyRound (q : ℚ) : ℤ :=
  let f := ⌊q⌋
  let r := q - (f : ℚ)
  if r < 1/2 then f else if 1/2 < r then f + 1 else if 2 ∣ f then f else f + 1

/-- Source lines 318-328: the fallback branch of the grid-size cascade; the
closest standard size by absolute distance is used when its relative distance
to raw is below 0.15, else raw is rounded to the nearest 0.01. -/
def fallbackGridSize (raw : ℚ) : ℚ :=
  let c := closest_std_size raw
  if |raw - c| / c < 15/100 then c
  else (pyRound (raw * 100) : ℚ) / 100

/-- Source lines 304-328: the cascading override on cells_across, returning
the selected grid size in meters together with the overridden confidence. -/
def applyCellsOverride (cells raw conf : ℚ) : ℚ × ℚ :=
  if 9 ≤ cells ∧ cells ≤ 11 then (1/10, max conf (9/10))
  else if 19 ≤ cells ∧ cells ≤ 21 then (5/100, max conf (85/100))
  else if 9/2 ≤ cells ∧ cells ≤ 11/2 then (2/10, max conf (85/100))
  else (fallbackGridSize raw, conf)

/-- Source lines 218-223: sort one axis's classified positions ascending and
filter near-duplicates with the default pixel tolerance 10. -/
def sortedFiltered (l : List ℚ) : List ℚ :=
  filter_duplicate_lines (l.insertionSort (· ≤ ·)) 10

/-- The dictionary returned at source lines 333-347 when a grid is detected,
as a function of the deduplicated axis lists, the spacing groups and the two
axis consistency scores. -/
def successResult (width : ℚ) (filteredH filteredV : List ℚ)
    (hGroups vGroups : List (ℚ × List ℚ)) (hCons vCons : ℚ) : GridResult :=
  let hSpacing := most_common_value hGroups
  let vSpacing := most_common_value vGroups
  let gridCandidates := axisCandidate hGroups hSpacing ++ axisCandidate vGroups vSpacing
  let gridSizePx := listMin gridCandidates
  let rawGridSizeM := gridSizePx / width
  let cellsAcross := width / gridSizePx
  let consistencyScore := (hCons + vCons) / 2
  let stdScore := standardSizeScore rawGridSizeM
  let nlScore := min 1 (((filteredH.length : ℚ) + (filteredV.length : ℚ)) / 30)
  let confidence := consistency_weight * consistencyScore +
    standard_size_weight * stdScore + num_lines_weight * nlScore
  let gc := applyCellsOverride cellsAcross rawGridSizeM confidence
  { detected := true
    grid_size_px := some gridSizePx
    grid_size_m := some (max (1/100) (min (1/2) gc.1))
    raw_grid_size_m := some rawGridSizeM
    cells_across := some cellsAcross
    confidence := some gc.2
    vertical_lines := some filteredV
    horizontal_lines := some filteredH
    vertical_spacing := vSpacing
    horizontal_spacing := hSpacing
    consistency_score := some consistencyScore
    standard_size_score := some stdScore
    num_lines_score := some nlScore }

/-- Body of ContentDetector.detect_grid from the raw-segment count check at
source line 186 onward, inside the try block; Python exceptions are Except
errors.  The division by width at line 257 and by grid_size_px at line 260
are the division sites whose denominators are not literals, checked here in
source order. -/
def detectGridBody (width : ℚ) (rawLineCount : ℕ) (hLines vLines : List ℚ) :
    Except String GridResult :=
  if rawLineCount < min_lines_for_grid then
    Except.ok { detected := false, reason := some "Not enough lines detected" }
  else
    let filteredH := sortedFiltered hLines
    let filteredV := sortedFiltered vLines
    if filteredH.length < min_lines_for_grid ∨ filteredV.length < min_lines_for_grid then
      Except.ok { detected := false, reason := some "Not enough consistent lines for a grid" }
    else
      match group_similar_values (calculate_spacings filteredH) (2/10),
            group_similar_values (calculate_spacings filteredV) (2/10) with
      | Except.error e, _ => Except.error e
      | Except.ok _, Except.error e => Except.error e
      | Except.ok hGroups, Except.ok vGroups =>
        let hSpacing := most_common_value hGroups
        let vSpacing := most_common_value vGroups
        let gridCandidates := axisCandidate hGroups hSpacing ++ axisCandidate vGroups vSpacing
        if gridCandidates = [] then
          Except.ok { detected := false, reason := some "No consistent grid spacing found" }
        else if width = 0 then Except.error "float division by zero"
        else if listMin gridCandidates = 0 then Except.error "float division by zero"
        else
          match calculate_consistency filteredH hSpacing,
                calculate_consistency filteredV vSpacing with
          | Except.error e, _ => Except.error e
          | Except.ok _, Except.error e => Except.error e
          | Except.ok hCons, Except.ok vCons =>
            Except.ok (successResult width filteredH filteredV hGroups vGroups hCons vCons)

/-- ContentDetector.detect_grid (source lines 115-353): the try/except
wrapper converts any exception e of the body into the dictionary of line 353,
detected False with reason the text of e. -/
def detect_grid (width : ℚ) (rawLineCount : ℕ) (hLines vLines : List ℚ) : GridResult :=
  match detectGridBody width rawLineCount hLines vLines with
  | Except.ok r => r
  | Except.error e => { detected := false, reason := some ("Error: " ++ e) }

/-- OpenCV thresholding with type THRESH_BINARY: a pixel above the threshold
maps to maxval, the rest to 0. -/
def threshBinary (t maxval : ℚ) (gray : List ℚ) : List ℚ :=
  gray.map (fun p => if t < p then maxval else 0)

/-- OpenCV thresholding with type THRESH_BINARY_INV: a pixel above the
threshold maps to 0, the rest to maxval. -/
def threshBinaryInv (t maxval : ℚ) (gray : List ℚ) : List ℚ :=
  gray.map (fun p => if t < p then 0 else maxval)

/-- Mean intensity of a grayscale pixel list. -/
def meanIntensity (gray : List ℚ) : ℚ :=
  gray.sum / (gray.length : ℚ)

/-- The binarization step of ContentDetector.detect_content (source line 82):
cv2.threshold(gray, 240, 255, THRESH_BINARY_INV + THRESH_OTSU).  With the
Otsu flag the library replaces the given threshold 240 by the Otsu value t of
the image, which enters the embedding as an input; the direction is always
the inverted one. -/
def detectContentBinarize (otsuT : ℚ) (gray : List ℚ) : List ℚ :=
  threshBinaryInv otsuT 255 gray

/-- Modelled from the spec, for comparison with detectContentBinarize: the
binarization direction the specification describes, chosen by comparing the
mean intensity to the midpoint of the 8-bit range: inverted for a light
background, direct for a dark background. -/
def detectContentBinarizeSpec (otsuT : ℚ) (gray : List ℚ) : List ℚ :=
  if 255/2 ≤ meanIntensity gray then threshBinaryInv otsuT 255 gray
  else threshBinary otsuT 255 gray

/-- Modelled from the claim wording of the fallback branch, for comparison
with fallbackGridSize: the standard size closest to raw by RELATIVE distance
abs(raw - s) / s, accepted under the same 15 percent relative test, else raw
rounded to the nearest 0.01. -/
def closestStdByRelGo (raw : ℚ) (best : ℚ) : List ℚ → ℚ
  | [] => best
  | s :: rest =>
    if |raw - s| / s < |raw - best| / best then closestStdByRelGo raw s rest
    else closestStdByRelGo raw best rest

/-- Modelled from the claim wording: first standard size minimizing the
relative distance. -/
def closestStdByRel (raw : ℚ) : ℚ :=
  match standard_grid_sizes with
  | [] => 0
  | s :: rest => closestStdByRelGo raw s rest

/-- Modelled from the claim wording: the fallback grid size with the
selection done by relative instead of absolute distance. -/
def fallbackGridSizeByRel (raw : ℚ) : ℚ :=
  let c := closestStdByRel raw
  if |raw - c| / c < 15/100 then c
  else (pyRound (raw * 100) : ℚ) / 100

/-! Lemmas about the line deduplicator. -/

/-- Every position kept by the dedup loop is at least tol above the last kept
position, and consecutive kept positions are at least tol apart. -/
theorem filterDupGo_strong (tol : ℚ) (htol : 0 ≤ tol) :
    ∀ (l : List ℚ) (last : ℚ),
      (∀ y ∈ filterDupGo tol last l, last + tol ≤ y) ∧
      List.Pairwise (fun a b => a + tol ≤ b) (filterDupGo tol last l) := by
  intro l
  induction l with
  | nil => intro last; simp [filterDupGo]
  | cons y ys ih =>
    intro last
    by_cases h : tol ≤ y - last
    · simp only [filterDupGo, if_pos h]
      obtain ⟨ihmem, ihpw⟩ := ih y
      refine ⟨?_, List.pairwise_cons.mpr ⟨fun z hz => by have := ihmem z hz; linarith, ihpw⟩⟩
      intro z hz
      rcases List.mem_cons.mp hz with rfl | hz
      · linarith
      · have := ihmem z hz; linarith
    · simp only [filterDupGo, if_neg h]
      exact ih last

/-- Consecutive kept positions of _filter_duplicate_lines differ by at least tol. -/
theorem filter_duplicate_lines_pairwise (lines : List ℚ) (tol : ℚ) (htol : 0 ≤ tol) :
    List.Pairwise (fun a b => a + tol ≤ b) (filter_duplicate_lines lines tol) := by
  cases lines with
  | nil => simp [filter_duplicate_lines]
  | cons x rest =>
    simp only [filter_duplicate_lines]
    exact List.pairwise_cons.mpr
      ⟨fun z hz => (filterDupGo_strong tol htol rest x).1 z hz,
       (filterDupGo_strong tol htol rest x).2⟩

/-- The dedup keeps the first position of its input. -/
theorem filter_duplicate_lines_head (lines : List ℚ) (tol : ℚ) :
    (filter_duplicate_lines lines tol).head? = lines.head? := by
  cases lines <;> simp [filter_duplicate_lines]

/-- All consecutive spacings of a list whose consecutive entries are at least
tol apart are at least tol. -/
theorem calculate_spacings_ge (tol : ℚ) :
    ∀ (l : List ℚ), List.Pairwise (fun a b => a + tol ≤ b) l →
      ∀ s ∈ calculate_spacings l, tol ≤ s
  | [] => by simp [calculate_spacings]
  | [_] => by simp [calculate_spacings]
  | x :: y :: ys => by
    intro hpw s hs
    simp only [calculate_spacings] at hs
    rcases List.mem_cons.mp hs with rfl | hs
    · have hxy : x + tol ≤ y := (List.pairwise_cons.mp hpw).1 y (by simp)
      linarith
    · exact calculate_spacings_ge tol (y :: ys) (List.pairwise_cons.mp hpw).2 s hs

/-- C4 counterexample: on the ascending list [0, 9, 9.5, 19] the source keeps
[0, 19]; the pair (9, 9.5) is closer than the tolerance yet NEITHER member
survives, refuting that exactly one of any close pair survives, and the pair
(9.5, 19) is closer than the tolerance with the LATER member 19 the only
survivor, refuting that the survivor is always the earlier one. -/
theorem c4_counterexample :
    List.Sorted (· ≤ ·) ([0, 9, 19/2, 19] : List ℚ) ∧
    filter_duplicate_lines [0, 9, 19/2, 19] 10 = [0, 19] ∧
    |(19/2 : ℚ) - 9| < 10 ∧ (9 : ℚ) ∉ ([0, 19] : List ℚ) ∧ (19/2 : ℚ) ∉ ([0, 19] : List ℚ) ∧
    |(19 : ℚ) - 19/2| < 10 ∧ (19 : ℚ) ∈ ([0, 19] : List ℚ) := by
  refine ⟨?_, ?_, by norm_num [abs_of_nonneg], by norm_num, by norm_num, by norm_num [abs_of_nonneg], by norm_num⟩
  · simp only [List.sorted_cons, List.mem_cons]
    norm_num
  · norm_num [filter_duplicate_lines, filterDupGo]

/-- C4 (amended): for every ascending-sorted list of positions the
deduplicator keeps the first position, its output is strictly increasing with
consecutive kept entries at least 10 apart, and of any two input positions
closer than the tolerance at most one survives (possibly neither, and the
survivor need not be the earlier one). -/
theorem c4_dedup_invariants (lines : List ℚ) (_hs : List.Sorted (· ≤ ·) lines) :
    (filter_duplicate_lines lines 10).head? = lines.head? ∧
    List.Sorted (· < ·) (filter_duplicate_lines lines 10) ∧
    List.Pairwise (fun a b => a + 10 ≤ b) (filter_duplicate_lines lines 10) ∧
    ∀ a ∈ lines, ∀ b ∈ lines, |a - b| < 10 →
      a ∈ filter_duplicate_lines lines 10 → b ∈ filter_duplicate_lines lines 10 → a = b := by
  have hpw := filter_duplicate_lines_pairwise lines 10 (by norm_num)
  refine ⟨filter_duplicate_lines_head lines 10, hpw.imp (fun h => by linarith), hpw, ?_⟩
  intro a _ b _ hab ha hb
  by_contra hne
  have hsym : Symmetric (fun x y : ℚ => (10 : ℚ) ≤ |x - y|) := by
    intro x y h
    rwa [abs_sub_comm]
  have hdist : (10 : ℚ) ≤ |a - b| := by
    have hpw2 : List.Pairwise (fun x y : ℚ => (10 : ℚ) ≤ |x - y|) (filter_duplicate_lines lines 10) := by
      refine hpw.imp ?_
      intro x y h
      rw [abs_sub_comm]
      have h2 : (10 : ℚ) ≤ y - x := by linarith
      exact h2.trans (le_abs_self _)
    exact hpw2.forall hsym ha hb hne
  linarith

/-- C4 witness: the amended invariants at the concrete sorted input
[0, 9, 9.5, 19]. -/
theorem c4_witness :
    (filter_duplicate_lines [0, 9, 19/2, 19] 10).head? = ([0, 9, 19/2, 19] : List ℚ).head? ∧
    List.Pairwise (fun a b : ℚ => a + 10 ≤ b) (filter_duplicate_lines [0, 9, 19/2, 19] 10) := by
  have h := c4_dedup_invariants [0, 9, 19/2, 19]
    (by simp only [List.sorted_cons, List.mem_cons]; norm_num)
  exact ⟨h.1, h.2.2.1⟩

/-! Lemmas about the spacing-grouping and dominant-group selection. -/

/-- Representatives (dict keys, in insertion order) of a group list. -/
def reps (groups : List (ℚ × List ℚ)) : List ℚ :=
  groups.map Prod.fst

/-- A successful insertion either leaves the representatives unchanged or
appends the new value as a fresh representative that was not yet present. -/
theorem insertValueE_reps (tol v : ℚ) (htol : 0 ≤ tol) :
    ∀ (gs gs2 : List (ℚ × List ℚ)), insertValueE tol v gs = Except.ok gs2 →
      reps gs2 = reps gs ∨ (reps gs2 = reps gs ++ [v] ∧ v ∉ reps gs)
  | [], gs2 => by
    intro h
    simp only [insertValueE, Except.ok.injEq] at h
    subst h
    simp [reps]
  | (rep, members) :: rest, gs2 => by
    intro h
    simp only [insertValueE] at h
    by_cases hrep : rep = 0
    · rw [if_pos hrep] at h
      exact absurd h (by simp)
    · rw [if_neg hrep] at h
      by_cases hclose : |v - rep| / rep ≤ tol
      · rw [if_pos hclose] at h
        simp only [Except.ok.injEq] at h
        subst h
        left
        simp [reps]
      · rw [if_neg hclose] at h
        cases hrec : insertValueE tol v rest with
        | error e => rw [hrec] at h; exact absurd h (by simp [Except.map])
        | ok rest2 =>
          rw [hrec] at h
          simp only [Except.map, Except.ok.injEq] at h
          subst h
          rcases insertValueE_reps tol v htol rest rest2 hrec with h2 | ⟨h2, h3⟩
          · left; simp [reps] at h2 ⊢; exact h2
          · right
            constructor
            · simp [reps] at h2 ⊢; exact h2
            · simp only [reps, List.map_cons, List.mem_cons]
              rintro (rfl | hmem)
              · exact hclose (by simp [abs_of_nonneg, sub_self, div_eq_zero_iff, htol])
              · exact h3 hmem

/-- Every representative after a successful insertion was already a
representative or is the inserted value. -/
theorem insertValueE_reps_subset (tol v : ℚ) (htol : 0 ≤ tol)
    (gs gs2 : List (ℚ × List ℚ)) (h : insertValueE tol v gs = Except.ok gs2) :
    ∀ a ∈ reps gs2, a ∈ reps gs ∨ a = v := by
  rcases insertValueE_reps tol v htol gs gs2 h with h2 | ⟨h2, _⟩ <;> rw [h2]
  · exact fun a ha => Or.inl ha
  · intro a ha
    rcases List.mem_append.mp ha with ha | ha
    · exact Or.inl ha
    · exact Or.inr (List.mem_singleton.mp ha)

/-- Invariant of the grouping fold over ascending values: if the pending
values dominate every current representative, the representatives stay
strictly increasing, and every final representative is an initial one or a
pending value. -/
theorem groupValuesGo_reps (tol : ℚ) (htol : 0 ≤ tol) :
    ∀ (vs : List ℚ) (gs gs2 : List (ℚ × List ℚ)),
      List.Sorted (· ≤ ·) vs →
      (∀ a ∈ reps gs, ∀ v ∈ vs, a ≤ v) →
      List.Pairwise (· < ·) (reps gs) →
      groupValuesGo tol vs gs = Except.ok gs2 →
      List.Pairwise (· < ·) (reps gs2) ∧ ∀ a ∈ reps gs2, a ∈ reps gs ∨ a ∈ vs
  | [], gs, gs2 => by
    intro _ _ hpw h
    simp only [groupValuesGo, Except.ok.injEq] at h
    subst h
    exact ⟨hpw, fun a ha => Or.inl ha⟩
  | v :: vs, gs, gs2 => by
    intro hsort hdom hpw h
    simp only [groupValuesGo] at h
    cases hins : insertValueE tol v gs with
    | error e => rw [hins] at h; exact absurd h (by simp)
    | ok gs1 =>
      rw [hins] at h
      have hsort2 : List.Sorted (· ≤ ·) vs := (List.sorted_cons.mp hsort).2
      have hvle : ∀ u ∈ vs, v ≤ u := (List.sorted_cons.mp hsort).1
      have hsub := insertValueE_reps_subset tol v htol gs gs1 hins
      have hdom1 : ∀ a ∈ reps gs1, ∀ u ∈ vs, a ≤ u := by
        intro a ha u hu
        rcases hsub a ha with ha2 | rfl
        · exact hdom a ha2 u (List.mem_cons_of_mem v hu)
        · exact hvle u hu
      have hpw1 : List.Pairwise (· < ·) (reps gs1) := by
        rcases insertValueE_reps tol v htol gs gs1 hins with h2 | ⟨h2, h3⟩
        · rwa [h2]
        · rw [h2]
          rw [List.pairwise_append]
          refine ⟨hpw, List.pairwise_singleton _ _, ?_⟩
          intro a ha b hb
          rw [List.mem_singleton] at hb
          subst hb
          have hle : a ≤ b := hdom a ha b (List.mem_cons_self b vs)
          rcases lt_or_eq_of_le hle with hlt | rfl
          · exact hlt
          · exact absurd ha h3
      obtain ⟨hres, hsub2⟩ := groupValuesGo_reps tol htol vs gs1 gs2 hsort2 hdom1 hpw1 h
      refine ⟨hres, ?_⟩
      intro a ha
      rcases hsub2 a ha with ha2 | ha2
      · rcases hsub a ha2 with ha3 | rfl
        · exact Or.inl ha3
        · exact Or.inr (List.mem_cons_self a vs)
      · exact Or.inr (List.mem_cons_of_mem v ha2)

/-- Representatives produced by _group_similar_values are strictly increasing
in insertion order and are drawn from the input values. -/
theorem group_similar_values_reps (values : List ℚ) (tol : ℚ) (htol : 0 ≤ tol)
    (gs : List (ℚ × List ℚ)) (h : group_similar_values values tol = Except.ok gs) :
    List.Pairwise (· < ·) (reps gs) ∧ ∀ a ∈ reps gs, a ∈ values := by
  have hsort : List.Sorted (· ≤ ·) (values.insertionSort (· ≤ ·)) :=
    List.sorted_insertionSort (· ≤ ·) values
  obtain ⟨h1, h2⟩ := groupValuesGo_reps tol htol (values.insertionSort (· ≤ ·)) [] gs
    hsort (by simp [reps]) (by simp [reps]) h
  refine ⟨h1, ?_⟩
  intro a ha
  rcases h2 a ha with ha2 | ha2
  · simp [reps] at ha2
  · exact (List.perm_insertionSort (· ≤ ·) values).mem_iff.mp ha2

/-- Behaviour of the Python max scan: either no group beats the running best
and the best is returned, or the result is the first group in the list whose
size exceeds the running best and is not exceeded later. -/
theorem mostCommonAux_spec :
    ∀ (rest : List (ℚ × List ℚ)) (best : ℚ) (bestLen : ℕ),
      (mostCommonAux best bestLen rest = best ∧ ∀ p ∈ rest, p.2.length ≤ bestLen) ∨
      (∃ pre q post, rest = pre ++ q :: post ∧ mostCommonAux best bestLen rest = q.1 ∧
        bestLen < q.2.length ∧ (∀ p ∈ pre, p.2.length < q.2.length) ∧
        (∀ p ∈ post, p.2.length ≤ q.2.length))
  | [] => by
    intro best bestLen
    left
    simp [mostCommonAux]
  | (rep, members) :: rest => by
    intro best bestLen
    by_cases h : bestLen < members.length
    · simp only [mostCommonAux, if_pos h]
      rcases mostCommonAux_spec rest rep members.length with ⟨h1, h2⟩ |
        ⟨pre, q, post, hsplit, hval, hlen, hpre, hpost⟩
      · right
        exact ⟨[], (rep, members), rest, by simp, by simp [h1], h, by simp, h2⟩
      · right
        refine ⟨(rep, members) :: pre, q, post, by simp [hsplit], hval, lt_trans h hlen, ?_, hpost⟩
        intro p hp
        rcases List.mem_cons.mp hp with rfl | hp
        · exact hlen
        · exact hpre p hp
    · simp only [mostCommonAux, if_neg h]
      rcases mostCommonAux_spec rest best bestLen with ⟨h1, h2⟩ |
        ⟨pre, q, post, hsplit, hval, hlen, hpre, hpost⟩
      · left
        refine ⟨h1, ?_⟩
        intro p hp
        rcases List.mem_cons.mp hp with rfl | hp
        · exact le_of_not_lt h
        · exact h2 p hp
      · right
        refine ⟨(rep, members) :: pre, q, post, by simp [hsplit], hval, hlen, ?_, hpost⟩
        intro p hp
        rcases List.mem_cons.mp hp with rfl | hp
        · exact lt_of_le_of_lt (le_of_not_lt h) hlen
        · exact hpre p hp

/-- _most_common_value returns the FIRST group of maximal size in insertion
order: every earlier group is strictly smaller, every later one no larger. -/
theorem most_common_value_first_max (groups : List (ℚ × List ℚ)) (r : ℚ)
    (h : most_common_value groups = some r) :
    ∃ pre ms post, groups = pre ++ (r, ms) :: post ∧
      (∀ p ∈ pre, p.2.length < ms.length) ∧ (∀ p ∈ post, p.2.length ≤ ms.length) := by
  cases groups with
  | nil => simp [most_common_value] at h
  | cons g rest =>
    obtain ⟨rep, members⟩ := g
    simp only [most_common_value, Option.some.injEq] at h
    rcases mostCommonAux_spec rest rep members.length with ⟨h1, h2⟩ |
      ⟨pre, q, post, hsplit, hval, hlen, hpre, hpost⟩
    · have hr : r = rep := by rw [← h, h1]
      subst hr
      exact ⟨[], members, rest, by simp, by simp, h2⟩
    · obtain ⟨qr, qm⟩ := q
      have hr : r = qr := by rw [← h, hval]
      subst hr
      refine ⟨(rep, members) :: pre, qm, post, by simp [hsplit], ?_, hpost⟩
      intro p hp
      rcases List.mem_cons.mp hp with rfl | hp
      · exact hlen
      · exact hpre p hp

/-- C10: when several spacing groups are tied for the most members,
_most_common_value returns the representative of the group created first;
since _group_similar_values processes values ascending, representatives are
created in increasing order, so the returned representative of a successful
grouping is of maximal group size and no larger than the representative of
any other group of that size: ties always break toward the smaller spacing. -/
theorem c10_tie_break (values : List ℚ) (tol : ℚ) (gs : List (ℚ × List ℚ)) (r : ℚ)
    (htol : 0 ≤ tol)
    (hok : group_similar_values values tol = Except.ok gs)
    (hmc : most_common_value gs = some r) :
    ∃ ms, (r, ms) ∈ gs ∧ ∀ p ∈ gs, p.2.length ≤ ms.length ∧ (p.2.length = ms.length → r ≤ p.1) := by
  obtain ⟨pre, ms, post, hsplit, hpre, hpost⟩ := most_common_value_first_max gs r hmc
  have hpw := (group_similar_values_reps values tol htol gs hok).1
  refine ⟨ms, by rw [hsplit]; exact List.mem_append_right _ (List.mem_cons_self _ _), ?_⟩
  intro p hp
  rw [hsplit] at hp
  rcases List.mem_append.mp hp with hp | hp
  · have hlt := hpre p hp
    exact ⟨le_of_lt hlt, fun he => absurd he (ne_of_lt hlt)⟩
  · rcases List.mem_cons.mp hp with rfl | hp
    · exact ⟨le_refl _, fun _ => le_refl _⟩
    · refine ⟨hpost p hp, fun _ => le_of_lt ?_⟩
      have hpw2 : List.Pairwise (· < ·) (reps (pre ++ (r, ms) :: post)) := by
        rw [← hsplit]
        exact hpw
      simp only [reps, List.map_append, List.map_cons] at hpw2
      have h2 := (List.pairwise_append.mp hpw2).2.1
      exact (List.pairwise_cons.mp h2).1 p.1 (List.mem_map_of_mem Prod.fst hp)

/-- C10 witness: spacings [10, 10.5, 21, 21.5] at 20 percent tolerance give
two groups of size 2 and the tie breaks to the smaller representative 10. -/
theorem c10_witness :
    ∃ ms, ((10 : ℚ), ms) ∈ ([(10, [10, 21/2]), (21, [21, 43/2])] : List (ℚ × List ℚ)) ∧
      ∀ p ∈ ([(10, [10, 21/2]), (21, [21, 43/2])] : List (ℚ × List ℚ)),
        p.2.length ≤ ms.length ∧ (p.2.length = ms.length → (10 : ℚ) ≤ p.1) :=
  c10_tie_break [10, 21/2, 21, 43/2] (1/5) ([(10, [10, 21/2]), (21, [21, 43/2])] : List (ℚ × List ℚ)) 10
    (by norm_num)
    (by norm_num [group_similar_values, groupValuesGo, insertValueE, List.insertionSort,
      List.orderedInsert, abs_of_nonneg, abs_of_nonpos, Except.map])
    (by norm_num [most_common_value, mostCommonAux])

/-- C3: grouping the spacings [10, 10.5, 21, 10.2] at 20 percent tolerance
iterates them in ascending order 10, 10.2, 10.5, 21, attaches 10.2 and 10.5
to the group whose representative is the first value 10, and starts a
singleton group for 21; the dominant group has size 3 and _most_common_value
selects its representative 10. -/
theorem c3_grouping_example :
    group_similar_values [10, 21/2, 21, 51/5] (2/10) =
      Except.ok [(10, [10, 51/5, 21/2]), (21, [21])] ∧
    (groupsGet [((10 : ℚ), [10, 51/5, 21/2]), ((21 : ℚ), [21])] (some 10)).length = 3 ∧
    (groupsGet [((10 : ℚ), [10, 51/5, 21/2]), ((21 : ℚ), [21])] (some 21)).length = 1 ∧
    most_common_value [((10 : ℚ), [10, 51/5, 21/2]), ((21 : ℚ), [21])] = some 10 := by
  refine ⟨?_, ?_, ?_, ?_⟩
  · norm_num [group_similar_values, groupValuesGo, insertValueE, List.insertionSort,
      List.orderedInsert, abs_of_nonneg, abs_of_nonpos, Except.map]
  · norm_num [groupsGet, List.find?]
  · norm_num [groupsGet, List.find?]
  · norm_num [most_common_value, mostCommonAux]

/-! Inversion of a detected detect_grid result. -/

/-- The fields of a detected result, named: a detected success dictionary is
exactly the record built from the candidate pitch, the physical conversion,
the override cascade on the weighted confidence, and the recorded sub-scores. -/
theorem successResult_spec (w : ℚ) (fh fv : List ℚ) (hG vG : List (ℚ × List ℚ)) (hc vc : ℚ) :
    ∃ px raw cells conf0,
      px = listMin (axisCandidate hG (most_common_value hG) ++ axisCandidate vG (most_common_value vG)) ∧
      raw = px / w ∧ cells = w / px ∧
      conf0 = consistency_weight * ((hc + vc) / 2) + standard_size_weight * standardSizeScore raw +
        num_lines_weight * min 1 (((fh.length : ℚ) + (fv.length : ℚ)) / 30) ∧
      successResult w fh fv hG vG hc vc =
        { detected := true
          grid_size_px := some px
          grid_size_m := some (max (1/100) (min (1/2) (applyCellsOverride cells raw conf0).1))
          raw_grid_size_m := some raw
          cells_across := some cells
          confidence := some ((applyCellsOverride cells raw conf0).2)
          vertical_lines := some fv
          horizontal_lines := some fh
          vertical_spacing := most_common_value vG
          horizontal_spacing := most_common_value hG
          consistency_score := some ((hc + vc) / 2)
          standard_size_score := some (standardSizeScore raw)
          num_lines_score := some (min 1 (((fh.length : ℚ) + (fv.length : ℚ)) / 30)) } :=
  ⟨_, _, _, _, rfl, rfl, rfl, rfl, rfl⟩

/-- A detected detect_grid result comes from the unique success path: all
guards passed, both groupings and consistency computations succeeded, and the
result is the success dictionary of those intermediate values. -/
theorem detect_grid_detected_inv (w : ℚ) (c : ℕ) (hl vl : List ℚ)
    (hdet : (detect_grid w c hl vl).detected = true) :
    ∃ hG vG hCons vCons,
      min_lines_for_grid ≤ c ∧
      min_lines_for_grid ≤ (sortedFiltered hl).length ∧
      min_lines_for_grid ≤ (sortedFiltered vl).length ∧
      group_similar_values (calculate_spacings (sortedFiltered hl)) (2/10) = Except.ok hG ∧
      group_similar_values (calculate_spacings (sortedFiltered vl)) (2/10) = Except.ok vG ∧
      axisCandidate hG (most_common_value hG) ++ axisCandidate vG (most_common_value vG) ≠ [] ∧
      w ≠ 0 ∧
      listMin (axisCandidate hG (most_common_value hG) ++ axisCandidate vG (most_common_value vG)) ≠ 0 ∧
      calculate_consistency (sortedFiltered hl) (most_common_value hG) = Except.ok hCons ∧
      calculate_consistency (sortedFiltered vl) (most_common_value vG) = Except.ok vCons ∧
      detect_grid w c hl vl = successResult w (sortedFiltered hl) (sortedFiltered vl) hG vG hCons vCons := by
  have hok : ∃ r, detectGridBody w c hl vl = Except.ok r ∧ r = detect_grid w c hl vl := by
    rw [detect_grid] at hdet ⊢
    cases hb : detectGridBody w c hl vl with
    | ok r => exact ⟨r, rfl, rfl⟩
    | error e => rw [hb] at hdet; simp at hdet
  obtain ⟨r, hok, hr⟩ := hok
  have hrdet : r.detected = true := by rw [hr]; exact hdet
  simp only [detectGridBody] at hok
  by_cases h1 : c < min_lines_for_grid
  · rw [if_pos h1] at hok
    simp only [Except.ok.injEq] at hok
    rw [← hok] at hrdet
    simp at hrdet
  rw [if_neg h1] at hok
  by_cases h2 : (sortedFiltered hl).length < min_lines_for_grid ∨
      (sortedFiltered vl).length < min_lines_for_grid
  · rw [if_pos h2] at hok
    simp only [Except.ok.injEq] at hok
    rw [← hok] at hrdet
    simp at hrdet
  rw [if_neg h2] at hok
  cases hGe : group_similar_values (calculate_spacings (sortedFiltered hl)) (2/10) with
  | error e => rw [hGe] at hok; simp at hok
  | ok hG =>
  rw [hGe] at hok
  cases vGe : group_similar_values (calculate_spacings (sortedFiltered vl)) (2/10) with
  | error e => rw [vGe] at hok; simp at hok
  | ok vG =>
  rw [vGe] at hok
  simp only at hok
  by_cases h3 : axisCandidate hG (most_common_value hG) ++ axisCandidate vG (most_common_value vG) = []
  · rw [if_pos h3] at hok
    simp only [Except.ok.injEq] at hok
    rw [← hok] at hrdet
    simp at hrdet
  rw [if_neg h3] at hok
  by_cases h4 : w = 0
  · rw [if_pos h4] at hok; simp at hok
  rw [if_neg h4] at hok
  by_cases h5 : listMin (axisCandidate hG (most_common_value hG) ++
      axisCandidate vG (most_common_value vG)) = 0
  · rw [if_pos h5] at hok; simp at hok
  rw [if_neg h5] at hok
  cases hCe : calculate_consistency (sortedFiltered hl) (most_common_value hG) with
  | error e => rw [hCe] at hok; simp at hok
  | ok hCons =>
  rw [hCe] at hok
  cases vCe : calculate_consistency (sortedFiltered vl) (most_common_value vG) with
  | error e => rw [vCe] at hok; simp at hok
  | ok vCons =>
  rw [vCe] at hok
  simp only [Except.ok.injEq] at hok
  push_neg at h2
  exact ⟨hG, vG, hCons, vCons, not_lt.mp h1, h2.1, h2.2,
    rfl, rfl, h3, h4, h5, hCe, vCe, by rw [← hr, ← hok]⟩

/-! Bounds on the three confidence sub-scores. -/

/-- A successful consistency computation with a positive expected spacing
lies in the unit interval. -/
theorem calculate_consistency_bounds (lines : List ℚ) (exp2 : Option ℚ) (x : ℚ)
    (hpos : ∀ e, exp2 = some e → 0 < e)
    (h : calculate_consistency lines exp2 = Except.ok x) :
    0 ≤ x ∧ x ≤ 1 := by
  rw [calculate_consistency.eq_def] at h
  by_cases hlen : lines.length < 2
  · rw [if_pos hlen] at h
    simp only [Except.ok.injEq] at h
    rw [← h]
    norm_num
  rw [if_neg hlen] at h
  cases exp2 with
  | none => simp at h
  | some e =>
    have he : 0 < e := hpos e rfl
    simp only at h
    rw [if_neg (ne_of_gt he)] at h
    simp only [Except.ok.injEq] at h
    rw [← h]
    have hq : 0 ≤ ((calculate_spacings lines).map (fun s => |s - e| / e)).sum /
        (((calculate_spacings lines).map (fun s => |s - e| / e)).length : ℚ) := by
      apply div_nonneg
      · apply List.sum_nonneg
        intro y hy
        obtain ⟨s, _, rfl⟩ := List.mem_map.mp hy
        positivity
      · positivity
    constructor
    · have h1 : min 1 (((calculate_spacings lines).map (fun s => |s - e| / e)).sum /
          (((calculate_spacings lines).map (fun s => |s - e| / e)).length : ℚ)) ≤ 1 :=
        min_le_left _ _
      linarith
    · have h2 : (0 : ℚ) ≤ min 1 (((calculate_spacings lines).map (fun s => |s - e| / e)).sum /
          (((calculate_spacings lines).map (fun s => |s - e| / e)).length : ℚ)) :=
        le_min (by norm_num) hq
      linarith

/-- The minimum relative distance to the standard-size table is nonnegative. -/
theorem minStdRelDistance_nonneg (raw : ℚ) : 0 ≤ minStdRelDistance raw := by
  rw [minStdRelDistance, standard_grid_sizes]
  simp only [List.map_cons, List.map_nil, List.foldl_cons, List.foldl_nil]
  positivity

/-- The standard-size score lies in the unit interval. -/
theorem standardSizeScore_bounds (raw : ℚ) :
    0 ≤ standardSizeScore raw ∧ standardSizeScore raw ≤ 1 := by
  rw [standardSizeScore]
  simp only [preferred_grid_size]
  have hd0 : 0 ≤ |raw - 1/10| / (1/10 : ℚ) := by positivity
  by_cases h : |raw - 1/10| / (1/10 : ℚ) < 1/10
  · rw [if_pos h]
    constructor <;> linarith
  · rw [if_neg h]
    have hmin := minStdRelDistance_nonneg raw
    exact ⟨le_max_left _ _, max_le (by norm_num) (by linarith)⟩

/-- The overridden confidence stays in the unit interval when the incoming
weighted confidence does. -/
theorem applyCellsOverride_conf_bounds (cells raw conf : ℚ)
    (h0 : 0 ≤ conf) (h1 : conf ≤ 1) :
    0 ≤ (applyCellsOverride cells raw conf).2 ∧ (applyCellsOverride cells raw conf).2 ≤ 1 := by
  rw [applyCellsOverride]
  split_ifs
  · exact ⟨le_max_of_le_right (by norm_num), max_le h1 (by norm_num)⟩
  · exact ⟨le_max_of_le_right (by norm_num), max_le h1 (by norm_num)⟩
  · exact ⟨le_max_of_le_right (by norm_num), max_le h1 (by norm_num)⟩
  · exact ⟨h0, h1⟩

/-- A dominant spacing of a successful grouping of the deduplicated spacings
is itself one of those spacings, hence at least the pixel tolerance 10. -/
theorem most_common_rep_pos (l : List ℚ) (gs : List (ℚ × List ℚ)) (e : ℚ)
    (hok : group_similar_values (calculate_spacings (sortedFiltered l)) (2/10) = Except.ok gs)
    (hmc : most_common_value gs = some e) : 0 < e := by
  obtain ⟨pre, ms, post, hsplit, _, _⟩ := most_common_value_first_max gs e hmc
  have hmem : e ∈ reps gs := by
    rw [hsplit, reps, List.map_append, List.map_cons]
    exact List.mem_append_right _ (List.mem_cons_self _ _)
  have hin : e ∈ calculate_spacings (sortedFiltered l) :=
    (group_similar_values_reps _ _ (by norm_num) gs hok).2 e hmem
  have hpw : List.Pairwise (fun a b => a + 10 ≤ b) (sortedFiltered l) :=
    filter_duplicate_lines_pairwise (List.insertionSort (· ≤ ·) l) 10 (by norm_num)
  have h10 := calculate_spacings_ge 10 (sortedFiltered l) hpw e hin
  linarith

/-- C6: every detected detect_grid result carries a confidence in the unit
interval and a grid size clamped into the interval from 0.01 to 0.5, on every
path through the weighted scoring, the override cascade and the fallback. -/
theorem c6_result_bounds (w : ℚ) (c : ℕ) (hl vl : List ℚ)
    (hdet : (detect_grid w c hl vl).detected = true) :
    ∃ conf g, (detect_grid w c hl vl).confidence = some conf ∧
      (detect_grid w c hl vl).grid_size_m = some g ∧
      0 ≤ conf ∧ conf ≤ 1 ∧ 1/100 ≤ g ∧ g ≤ 1/2 := by
  obtain ⟨hG, vG, hCons, vCons, _, _, _, hGok, vGok, _, _, _, hCok, vCok, heq⟩ :=
    detect_grid_detected_inv w c hl vl hdet
  obtain ⟨px, raw, cells, conf0, _, _, _, hconf0, hsr⟩ :=
    successResult_spec w (sortedFiltered hl) (sortedFiltered vl) hG vG hCons vCons
  have hhc : 0 ≤ hCons ∧ hCons ≤ 1 := by
    apply calculate_consistency_bounds (sortedFiltered hl) (most_common_value hG) hCons _ hCok
    intro e he
    exact most_common_rep_pos hl hG e hGok he
  have hvc : 0 ≤ vCons ∧ vCons ≤ 1 := by
    apply calculate_consistency_bounds (sortedFiltered vl) (most_common_value vG) vCons _ vCok
    intro e he
    exact most_common_rep_pos vl vG e vGok he
  have hss := standardSizeScore_bounds raw
  have hnl : 0 ≤ min 1 ((((sortedFiltered hl).length : ℚ) + ((sortedFiltered vl).length : ℚ)) / 30) ∧
      min 1 ((((sortedFiltered hl).length : ℚ) + ((sortedFiltered vl).length : ℚ)) / 30) ≤ 1 :=
    ⟨le_min (by norm_num) (by positivity), min_le_left _ _⟩
  have hconf0b : 0 ≤ conf0 ∧ conf0 ≤ 1 := by
    rw [hconf0, consistency_weight, standard_size_weight, num_lines_weight]
    constructor <;> nlinarith [hhc.1, hhc.2, hvc.1, hvc.2, hss.1, hss.2, hnl.1, hnl.2]
  have hcb := applyCellsOverride_conf_bounds cells raw conf0 hconf0b.1 hconf0b.2
  refine ⟨(applyCellsOverride cells raw conf0).2,
    max (1/100) (min (1/2) (applyCellsOverride cells raw conf0).1), ?_, ?_, hcb.1, hcb.2,
    le_max_left _ _, max_le (by norm_num) (min_le_left _ _)⟩
  · rw [heq, hsr]
  · rw [heq, hsr]

/-! Concrete evaluations used by witnesses. -/

/-- Evaluation of detect_grid on a 10.4-cells-across input: five lines at
pixel pitch 100 on each axis in a 1040-pixel-wide image. -/
theorem detect_grid_eval_ten_cells :
    detect_grid 1040 10 [0,100,200,300,400] [0,100,200,300,400] =
    { detected := true, grid_size_px := some 100, grid_size_m := some (1/10),
      raw_grid_size_m := some (5/52), cells_across := some (52/5), confidence := some (9/10),
      vertical_lines := some [0,100,200,300,400], horizontal_lines := some [0,100,200,300,400],
      vertical_spacing := some 100, horizontal_spacing := some 100,
      consistency_score := some 1, standard_size_score := some (25/26),
      num_lines_score := some (1/3) } := by
  have h1 : sortedFiltered [0,100,200,300,400] = [0,100,200,300,400] := by
    norm_num [sortedFiltered, filter_duplicate_lines, filterDupGo, List.insertionSort,
      List.orderedInsert]
  have h2 : calculate_spacings [0,100,200,300,400] = [100,100,100,100] := by
    norm_num [calculate_spacings]
  have h3 : group_similar_values [100,100,100,100] (1/5) = Except.ok [(100,[100,100,100,100])] := by
    norm_num [group_similar_values, groupValuesGo, insertValueE, List.insertionSort,
      List.orderedInsert, abs_of_nonneg, abs_of_nonpos, Except.map]
  have h4 : most_common_value [((100:ℚ),[100,100,100,100])] = some 100 := by
    norm_num [most_common_value, mostCommonAux]
  have h5 : axisCandidate [((100:ℚ),[100,100,100,100])] (some 100) = [100] := by
    norm_num [axisCandidate, groupsGet, List.find?]
  have h6 : calculate_consistency [0,100,200,300,400] (some 100) = Except.ok 1 := by
    norm_num [calculate_consistency, calculate_spacings, abs_of_nonneg, abs_of_nonpos]
  have h7 : standardSizeScore (5/52) = 25/26 := by
    norm_num [standardSizeScore, preferred_grid_size, abs_of_nonneg, abs_of_nonpos]
  rw [detect_grid, detectGridBody]
  norm_num [h1, h2, h3, h4, h5, h6, h7, min_lines_for_grid, listMin, successResult,
    applyCellsOverride, consistency_weight, standard_size_weight, num_lines_weight,
    List.cons_ne_nil]

/-- C1: whenever a detected result has cells_across between 9 and 11, the
returned grid size is exactly 0.1 and the confidence is at least 0.9 and
never below the pre-override weighted score recorded in the three sub-score
fields; the later cascade branches are never consulted. -/
theorem c1_ten_cell_override (w : ℚ) (c : ℕ) (hl vl : List ℚ) (ca : ℚ)
    (hdet : (detect_grid w c hl vl).detected = true)
    (hca : (detect_grid w c hl vl).cells_across = some ca)
    (h9 : 9 ≤ ca) (h11 : ca ≤ 11) :
    (detect_grid w c hl vl).grid_size_m = some (1/10) ∧
    ∃ conf cs ss ns,
      (detect_grid w c hl vl).confidence = some conf ∧
      (detect_grid w c hl vl).consistency_score = some cs ∧
      (detect_grid w c hl vl).standard_size_score = some ss ∧
      (detect_grid w c hl vl).num_lines_score = some ns ∧
      9/10 ≤ conf ∧
      consistency_weight * cs + standard_size_weight * ss + num_lines_weight * ns ≤ conf := by
  obtain ⟨hG, vG, hCons, vCons, _, _, _, _, _, _, _, _, _, _, heq⟩ :=
    detect_grid_detected_inv w c hl vl hdet
  obtain ⟨px, raw, cells, conf0, _, _, _, hconf0, hsr⟩ :=
    successResult_spec w (sortedFiltered hl) (sortedFiltered vl) hG vG hCons vCons
  rw [heq, hsr] at hca
  have hcell : cells = ca := by simpa using hca
  have hov : applyCellsOverride cells raw conf0 = (1/10, max conf0 (9/10)) := by
    rw [applyCellsOverride, if_pos (show 9 ≤ cells ∧ cells ≤ 11 by rw [hcell]; exact ⟨h9, h11⟩)]
  rw [heq, hsr]
  constructor
  · rw [hov]
    norm_num
  · refine ⟨(applyCellsOverride cells raw conf0).2, (hCons + vCons) / 2, standardSizeScore raw,
      min 1 ((((sortedFiltered hl).length : ℚ) + ((sortedFiltered vl).length : ℚ)) / 30),
      rfl, rfl, rfl, rfl, ?_, ?_⟩
    · rw [hov]
      exact le_max_right _ _
    · rw [hov, ← hconf0]
      exact le_max_left _ _

/-- C1 witness: the ten-cell override at the concrete input whose
cells_across is 10.4, where the raw weighted confidence is below 0.9. -/
theorem c1_witness :
    (detect_grid 1040 10 [0,100,200,300,400] [0,100,200,300,400]).grid_size_m = some (1/10) ∧
    ∃ conf cs ss ns,
      (detect_grid 1040 10 [0,100,200,300,400] [0,100,200,300,400]).confidence = some conf ∧
      (detect_grid 1040 10 [0,100,200,300,400] [0,100,200,300,400]).consistency_score = some cs ∧
      (detect_grid 1040 10 [0,100,200,300,400] [0,100,200,300,400]).standard_size_score = some ss ∧
      (detect_grid 1040 10 [0,100,200,300,400] [0,100,200,300,400]).num_lines_score = some ns ∧
      9/10 ≤ conf ∧
      consistency_weight * cs + standard_size_weight * ss + num_lines_weight * ns ≤ conf :=
  c1_ten_cell_override 1040 10 [0,100,200,300,400] [0,100,200,300,400] (52/5)
    (by rw [detect_grid_eval_ten_cells])
    (by rw [detect_grid_eval_ten_cells])
    (by norm_num) (by norm_num)

/-- C6 witness: the bounds at the same concrete detected input. -/
theorem c6_witness :
    ∃ conf g,
      (detect_grid 1040 10 [0,100,200,300,400] [0,100,200,300,400]).confidence = some conf ∧
      (detect_grid 1040 10 [0,100,200,300,400] [0,100,200,300,400]).grid_size_m = some g ∧
      0 ≤ conf ∧ conf ≤ 1 ∧ 1/100 ≤ g ∧ g ≤ 1/2 :=
  c6_result_bounds 1040 10 [0,100,200,300,400] [0,100,200,300,400]
    (by rw [detect_grid_eval_ten_cells])

/-- C2: with both axis groupings computed, a detected result reports as
grid_size_px the minimum over the accepted per-axis dominant spacings (an
axis contributes its dominant spacing only when its group has at least 3
members), and when the guards pass but neither axis yields an accepted
candidate, detect_grid returns the not-detected dictionary with reason
No consistent grid spacing found. -/
theorem c2_pitch_min (w : ℚ) (c : ℕ) (hl vl : List ℚ)
    (hG vG : List (ℚ × List ℚ)) (cands : List ℚ)
    (hGok : group_similar_values (calculate_spacings (sortedFiltered hl)) (2/10) = Except.ok hG)
    (vGok : group_similar_values (calculate_spacings (sortedFiltered vl)) (2/10) = Except.ok vG)
    (hcands : cands = axisCandidate hG (most_common_value hG) ++
      axisCandidate vG (most_common_value vG)) :
    ((detect_grid w c hl vl).detected = true →
      (detect_grid w c hl vl).grid_size_px = some (listMin cands)) ∧
    (min_lines_for_grid ≤ c → min_lines_for_grid ≤ (sortedFiltered hl).length →
      min_lines_for_grid ≤ (sortedFiltered vl).length → cands = [] →
      detect_grid w c hl vl =
        { detected := false, reason := some "No consistent grid spacing found" }) := by
  constructor
  · intro hdet
    obtain ⟨hG0, vG0, hCons, vCons, _, _, _, hGok0, vGok0, _, _, _, _, _, heq⟩ :=
      detect_grid_detected_inv w c hl vl hdet
    obtain ⟨px, raw, cells, conf0, hpx, _, _, _, hsr⟩ :=
      successResult_spec w (sortedFiltered hl) (sortedFiltered vl) hG0 vG0 hCons vCons
    have e1 : hG0 = hG := Except.ok.inj (hGok0.symm.trans hGok)
    have e2 : vG0 = vG := Except.ok.inj (vGok0.symm.trans vGok)
    rw [heq, hsr]
    show some px = some (listMin cands)
    rw [hpx, hcands, e1, e2]
  · intro hc hlh hlv hce
    have hax : axisCandidate hG (most_common_value hG) ++
        axisCandidate vG (most_common_value vG) = [] := by
      rw [← hcands]
      exact hce
    have hbody : detectGridBody w c hl vl =
        Except.ok { detected := false, reason := some "No consistent grid spacing found" } := by
      simp only [detectGridBody]
      rw [if_neg (not_lt.mpr hc),
        if_neg (show ¬((sortedFiltered hl).length < min_lines_for_grid ∨
          (sortedFiltered vl).length < min_lines_for_grid) by push_neg; exact ⟨hlh, hlv⟩),
        hGok, vGok]
      simp [hax]
    rw [detect_grid, hbody]

/-- C2 witness: at the concrete detected input both axes contribute the
dominant spacing 100 and the reported pitch is their minimum. -/
theorem c2_witness :
    (detect_grid 1040 10 [0,100,200,300,400] [0,100,200,300,400]).grid_size_px =
      some (listMin [100, 100]) := by
  have hGok : group_similar_values (calculate_spacings (sortedFiltered [0,100,200,300,400]))
      (2/10) = Except.ok [(100,[100,100,100,100])] := by
    have h1 : sortedFiltered [0,100,200,300,400] = [0,100,200,300,400] := by
      norm_num [sortedFiltered, filter_duplicate_lines, filterDupGo, List.insertionSort,
        List.orderedInsert]
    rw [h1]
    norm_num [calculate_spacings, group_similar_values, groupValuesGo, insertValueE,
      List.insertionSort, List.orderedInsert, abs_of_nonneg, abs_of_nonpos, Except.map]
  have hcands : ([100, 100] : List ℚ) =
      axisCandidate [((100:ℚ),[100,100,100,100])]
        (most_common_value [((100:ℚ),[100,100,100,100])]) ++
      axisCandidate [((100:ℚ),[100,100,100,100])]
        (most_common_value [((100:ℚ),[100,100,100,100])]) := by
    norm_num [axisCandidate, groupsGet, most_common_value, mostCommonAux, List.find?]
  exact (c2_pitch_min 1040 10 [0,100,200,300,400] [0,100,200,300,400]
    [(100,[100,100,100,100])] [(100,[100,100,100,100])] [100, 100] hGok hGok hcands).1
    (by rw [detect_grid_eval_ten_cells])

/-- C5 (amended): in the fallback branch, reached by a detected result whose
cells_across matches no override range, the grid size is the clamp of the
fallback selection, and that selection takes the standard size closest to raw
by ABSOLUTE distance when its relative distance to raw is below 15 percent,
else raw rounded to the nearest 0.01 (half to even). -/
theorem c5_fallback_absolute (w : ℚ) (c : ℕ) (hl vl : List ℚ) (ca rawv : ℚ)
    (hdet : (detect_grid w c hl vl).detected = true)
    (hca : (detect_grid w c hl vl).cells_across = some ca)
    (hraw : (detect_grid w c hl vl).raw_grid_size_m = some rawv)
    (h1 : ¬ (9 ≤ ca ∧ ca ≤ 11)) (h2 : ¬ (19 ≤ ca ∧ ca ≤ 21))
    (h3 : ¬ (9/2 ≤ ca ∧ ca ≤ 11/2)) :
    (detect_grid w c hl vl).grid_size_m =
      some (max (1/100) (min (1/2) (fallbackGridSize rawv))) ∧
    fallbackGridSize rawv =
      (if |rawv - closest_std_size rawv| / closest_std_size rawv < 15/100
       then closest_std_size rawv
       else (pyRound (rawv * 100) : ℚ) / 100) := by
  obtain ⟨hG, vG, hCons, vCons, _, _, _, _, _, _, _, _, _, _, heq⟩ :=
    detect_grid_detected_inv w c hl vl hdet
  obtain ⟨px, raw0, cells, conf0, _, _, _, _, hsr⟩ :=
    successResult_spec w (sortedFiltered hl) (sortedFiltered vl) hG vG hCons vCons
  rw [heq, hsr] at hca hraw
  have hcell : cells = ca := by simpa using hca
  have hrawe : raw0 = rawv := by simpa using hraw
  have hov : applyCellsOverride cells raw0 conf0 = (fallbackGridSize raw0, conf0) := by
    rw [applyCellsOverride, hcell, if_neg h1, if_neg h2, if_neg h3]
  rw [heq, hsr]
  constructor
  · show some (max (1/100) (min (1/2) (applyCellsOverride cells raw0 conf0).1)) = _
    rw [hov, hrawe]
  · rfl

/-- Evaluation of detect_grid on the fallback-branch input: five lines at
pixel pitch 224 on each axis in a 1000-pixel-wide image, raw pitch 0.224. -/
theorem detect_grid_eval_fallback :
    detect_grid 1000 10 [0,224,448,672,896] [0,224,448,672,896] =
      { detected := true, grid_size_px := some 224, grid_size_m := some (1/5),
        raw_grid_size_m := some (28/125), cells_across := some (125/28),
        confidence := some (1547/1875),
        vertical_lines := some [0,224,448,672,896],
        horizontal_lines := some [0,224,448,672,896],
        vertical_spacing := some 224, horizontal_spacing := some 224,
        consistency_score := some 1, standard_size_score := some (112/125),
        num_lines_score := some (1/3) } := by
  have h1 : sortedFiltered [0,224,448,672,896] = [0,224,448,672,896] := by
    norm_num [sortedFiltered, filter_duplicate_lines, filterDupGo, List.insertionSort,
      List.orderedInsert]
  have h2 : calculate_spacings [0,224,448,672,896] = [224,224,224,224] := by
    norm_num [calculate_spacings]
  have h3 : group_similar_values [224,224,224,224] (1/5) =
      Except.ok [(224,[224,224,224,224])] := by
    norm_num [group_similar_values, groupValuesGo, insertValueE, List.insertionSort,
      List.orderedInsert, abs_of_nonneg, abs_of_nonpos, Except.map]
  have h4 : most_common_value [((224:ℚ),[224,224,224,224])] = some 224 := by
    norm_num [most_common_value, mostCommonAux]
  have h5 : axisCandidate [((224:ℚ),[224,224,224,224])] (some 224) = [224] := by
    norm_num [axisCandidate, groupsGet, List.find?]
  have h6 : calculate_consistency [0,224,448,672,896] (some 224) = Except.ok 1 := by
    norm_num [calculate_consistency, calculate_spacings, abs_of_nonneg, abs_of_nonpos]
  have h7 : standardSizeScore (28/125) = 112/125 := by
    norm_num [standardSizeScore, minStdRelDistance, standard_grid_sizes,
      preferred_grid_size, abs_of_nonneg, abs_of_nonpos]
  have h8 : fallbackGridSize (28/125) = 1/5 := by
    norm_num [fallbackGridSize, closest_std_size, closestStdGo, standard_grid_sizes,
      abs_of_nonneg, abs_of_nonpos]
  rw [detect_grid, detectGridBody]
  norm_num [h1, h2, h3, h4, h5, h6, h7, h8, min_lines_for_grid, listMin, successResult,
    applyCellsOverride, consistency_weight, standard_size_weight, num_lines_weight,
    List.cons_ne_nil]

/-- C5 counterexample: at raw pitch 0.224 the code picks 0.2, the standard
size closest by absolute distance, while the claimed relative-distance
selection picks 0.25 and accepts it, so the claimed fallback value differs
from the returned grid size. -/
theorem c5_counterexample :
    (detect_grid 1000 10 [0,224,448,672,896] [0,224,448,672,896]).detected = true ∧
    (detect_grid 1000 10 [0,224,448,672,896] [0,224,448,672,896]).cells_across =
      some (125/28) ∧
    (¬ ((9:ℚ) ≤ 125/28 ∧ (125/28:ℚ) ≤ 11)) ∧
    (¬ ((19:ℚ) ≤ 125/28 ∧ (125/28:ℚ) ≤ 21)) ∧
    (¬ ((9/2:ℚ) ≤ 125/28 ∧ (125/28:ℚ) ≤ 11/2)) ∧
    (detect_grid 1000 10 [0,224,448,672,896] [0,224,448,672,896]).raw_grid_size_m =
      some (28/125) ∧
    fallbackGridSizeByRel (28/125) = 1/4 ∧
    |(28/125 : ℚ) - 1/4| / (1/4) < 15/100 ∧
    max (1/100) (min (1/2) (1/4 : ℚ)) = 1/4 ∧
    (detect_grid 1000 10 [0,224,448,672,896] [0,224,448,672,896]).grid_size_m =
      some (1/5) ∧
    (1/5 : ℚ) ≠ 1/4 := by
  rw [detect_grid_eval_fallback]
  refine ⟨rfl, rfl, by norm_num, by norm_num, by norm_num, rfl, ?_, by
    norm_num [abs_of_nonpos], by norm_num, rfl, by norm_num⟩
  norm_num [fallbackGridSizeByRel, closestStdByRel, closestStdByRelGo, standard_grid_sizes,
    abs_of_nonneg, abs_of_nonpos]

/-- C5 witness: the amended fallback at the concrete raw pitch 0.224 input. -/
theorem c5_witness :
    (detect_grid 1000 10 [0,224,448,672,896] [0,224,448,672,896]).grid_size_m =
      some (max (1/100) (min (1/2) (fallbackGridSize (28/125)))) ∧
    fallbackGridSize (28/125) =
      (if |(28/125 : ℚ) - closest_std_size (28/125)| / closest_std_size (28/125) < 15/100
       then closest_std_size (28/125)
       else (pyRound ((28/125) * 100) : ℚ) / 100) :=
  c5_fallback_absolute 1000 10 [0,224,448,672,896] [0,224,448,672,896] (125/28) (28/125)
    (by rw [detect_grid_eval_fallback]) (by rw [detect_grid_eval_fallback])
    (by rw [detect_grid_eval_fallback])
    (by norm_num) (by norm_num) (by norm_num)

/-- C7: whenever fewer than 4 raw segments were extracted or either axis's
deduplicated position list has fewer than 4 entries, detect_grid returns a
not-detected insufficient-lines failure, carrying no pixel pitch and no grid
size, so spacing estimation is never reached. -/
theorem c7_insufficient_lines (w : ℚ) (c : ℕ) (hl vl : List ℚ)
    (h : c < min_lines_for_grid ∨ (sortedFiltered hl).length < min_lines_for_grid ∨
      (sortedFiltered vl).length < min_lines_for_grid) :
    (detect_grid w c hl vl).detected = false ∧
    ((detect_grid w c hl vl).reason = some "Not enough lines detected" ∨
      (detect_grid w c hl vl).reason = some "Not enough consistent lines for a grid") ∧
    (detect_grid w c hl vl).grid_size_px = none ∧
    (detect_grid w c hl vl).grid_size_m = none := by
  by_cases h1 : c < min_lines_for_grid
  · have hbody : detectGridBody w c hl vl =
        Except.ok { detected := false, reason := some "Not enough lines detected" } := by
      simp only [detectGridBody]
      rw [if_pos h1]
    rw [detect_grid, hbody]
    exact ⟨rfl, Or.inl rfl, rfl, rfl⟩
  · have h2 : (sortedFiltered hl).length < min_lines_for_grid ∨
        (sortedFiltered vl).length < min_lines_for_grid := by
      rcases h with h | h | h
      · exact absurd h h1
      · exact Or.inl h
      · exact Or.inr h
    have hbody : detectGridBody w c hl vl =
        Except.ok { detected := false, reason := some "Not enough consistent lines for a grid" } := by
      simp only [detectGridBody]
      rw [if_neg h1, if_pos h2]
    rw [detect_grid, hbody]
    exact ⟨rfl, Or.inr rfl, rfl, rfl⟩

/-- C7 witness: an input with only 3 classified lines on the horizontal axis
fails as an insufficient-lines result with no pitch computed. -/
theorem c7_witness :
    (detect_grid 100 10 [0, 50, 100] [0, 20, 40, 60, 80]).detected = false ∧
    ((detect_grid 100 10 [0, 50, 100] [0, 20, 40, 60, 80]).reason =
        some "Not enough lines detected" ∨
      (detect_grid 100 10 [0, 50, 100] [0, 20, 40, 60, 80]).reason =
        some "Not enough consistent lines for a grid") ∧
    (detect_grid 100 10 [0, 50, 100] [0, 20, 40, 60, 80]).grid_size_px = none ∧
    (detect_grid 100 10 [0, 50, 100] [0, 20, 40, 60, 80]).grid_size_m = none :=
  c7_insufficient_lines 100 10 [0, 50, 100] [0, 20, 40, 60, 80]
    (Or.inr (Or.inl (by norm_num [sortedFiltered, filter_duplicate_lines, filterDupGo,
      List.insertionSort, List.orderedInsert, min_lines_for_grid])))

/-- C8: detect_grid never propagates an exception: whenever the body raises,
the public entry point returns the structured dictionary with detected False
and a reason carrying the original error text. -/
theorem c8_exception_conversion (w : ℚ) (c : ℕ) (hl vl : List ℚ) (e : String)
    (herr : detectGridBody w c hl vl = Except.error e) :
    detect_grid w c hl vl = { detected := false, reason := some ("Error: " ++ e) } := by
  rw [detect_grid, herr]

/-- C8 witness: a zero image width makes the body raise a division by zero,
which detect_grid converts into the structured error result. -/
theorem c8_witness :
    detect_grid 0 10 [0,100,200,300,400] [0,100,200,300,400] =
      { detected := false, reason := some ("Error: " ++ "float division by zero") } :=
  c8_exception_conversion 0 10 [0,100,200,300,400] [0,100,200,300,400]
    "float division by zero" (by
      have h1 : sortedFiltered [0,100,200,300,400] = [0,100,200,300,400] := by
        norm_num [sortedFiltered, filter_duplicate_lines, filterDupGo, List.insertionSort,
          List.orderedInsert]
      have h3 : group_similar_values [100,100,100,100] (1/5) =
          Except.ok [(100,[100,100,100,100])] := by
        norm_num [group_similar_values, groupValuesGo, insertValueE, List.insertionSort,
          List.orderedInsert, abs_of_nonneg, abs_of_nonpos, Except.map]
      have h4 : most_common_value [((100:ℚ),[100,100,100,100])] = some 100 := by
        norm_num [most_common_value, mostCommonAux]
      have h5 : axisCandidate [((100:ℚ),[100,100,100,100])] (some 100) = [100] := by
        norm_num [axisCandidate, groupsGet, List.find?]
      simp only [detectGridBody]
      norm_num [h1, calculate_spacings, h3, h4, h5, min_lines_for_grid, listMin,
        List.cons_ne_nil])

/-- C9 counterexample: the mean intensity of the grayscale image [0, 0, 200]
is below the 8-bit midpoint (a dark background), yet whatever nonnegative
threshold the library's Otsu computation supplies, the code's binarization is
the inverted one and differs from the direct thresholding the claim requires
for a dark background. -/
theorem c9_counterexample :
    meanIntensity [0, 0, 200] < 255/2 ∧
    ∀ t : ℚ, 0 ≤ t →
      detectContentBinarize t [0, 0, 200] ≠ detectContentBinarizeSpec t [0, 0, 200] := by
  constructor
  · norm_num [meanIntensity]
  · intro t ht
    have hmean : ¬ (255/2 ≤ meanIntensity [0, 0, 200]) := by norm_num [meanIntensity]
    rw [detectContentBinarize, detectContentBinarizeSpec, if_neg hmean]
    simp only [threshBinaryInv, threshBinary, List.map_cons, List.map_nil,
      if_neg (not_lt.mpr ht)]
    intro hcontra
    have h0 := List.head_eq_of_cons_eq hcontra
    norm_num at h0

/-- C9 (amended): the binarization step of detect_content always applies the
inverted Otsu threshold regardless of mean intensity: every pixel above the
threshold maps to 0 and every other pixel to 255. -/
theorem c9_binarize_always_inverted (t : ℚ) (gray : List ℚ) (i : ℕ) :
    (detectContentBinarize t gray)[i]? =
      (gray[i]?).map (fun p => if t < p then (0 : ℚ) else 255) := by
  simp [detectContentBinarize, threshBinaryInv, List.getElem?_map]
